import Mathlib

/-!
# Casse-briques: geometry utilities and the game loop

A shallow embedding of `src/utils.cpp` (`checkCollision`, `fillPolygon`) and of
`src/main.cpp` (`createAdditionalBalls`, `runGame`) together with the properties
established about them.

Conventions.
* C++ `int` values that come from the caller (`SDL_Rect`, `SDL_Point`) are integers
  and every arithmetic operation on them is reduced to the 32-bit two's-complement
  range by `wrap32`.
* A division whose divisor is zero has no value: `div32` returns `none`.
* `lives` and `score` are unbounded integers: they move by at most 150 per brick and
  by one per frame, far from the 32-bit limits.
-/

namespace CasseBriques

/-! ## 32-bit integer arithmetic -/

/-- Reduction of an integer to the signed 32-bit range. -/
def wrap32 (n : Int) : Int := (n + 2147483648) % 4294967296 - 2147483648

/-- Membership in the signed 32-bit range. -/
def isInt32 (n : Int) : Prop := -2147483648 ≤ n ∧ n ≤ 2147483647

instance (n : Int) : Decidable (isInt32 n) := by
  unfold isInt32
  infer_instance

/-- The C++ `a + b` on `int`. -/
def add32 (a b : Int) : Int := wrap32 (a + b)

/-- The C++ `a - b` on `int`. -/
def sub32 (a b : Int) : Int := wrap32 (a - b)

/-- The C++ `a * b` on `int`. -/
def mul32 (a b : Int) : Int := wrap32 (a * b)

/-- The C++ `a / b` on `int`: truncated quotient, no value when `b` is zero. -/
def div32 (a b : Int) : Option Int :=
  if b = 0 then none else some (wrap32 (a.tdiv b))

/-! ## SDL value types -/

/-- The `SDL_Rect` record: four `int` fields. -/
structure SDL_Rect where
  x : Int
  y : Int
  w : Int
  h : Int
deriving DecidableEq, Repr

/-- The `SDL_Point` record: two `int` fields. -/
structure SDL_Point where
  x : Int
  y : Int
deriving DecidableEq, Repr

/-- One call `SDL_RenderDrawLine(renderer, x1, y1, x2, y2)`. -/
structure DrawLine where
  x1 : Int
  y1 : Int
  x2 : Int
  y2 : Int
deriving DecidableEq, Repr

/-! ## `utils.cpp` -/

/-- The function `checkCollision` of `utils.cpp`, line 24. -/
def checkCollision (a b : SDL_Rect) : Bool :=
  !(decide (add32 a.x a.w < b.x) || decide (a.x > add32 b.x b.w) ||
    decide (add32 a.y a.h < b.y) || decide (a.y > add32 b.y b.h))

/-- None of the four sums `checkCollision` forms leaves the `int` range. -/
def sumsFit (a b : SDL_Rect) : Prop :=
  isInt32 (a.x + a.w) ∧ isInt32 (b.x + b.w) ∧ isInt32 (a.y + a.h) ∧ isInt32 (b.y + b.h)

instance (a b : SDL_Rect) : Decidable (sumsFit a b) := by
  unfold sumsFit
  infer_instance

/-- The edge test of `fillPolygon`, line 52: exactly one of the two endpoints lies
strictly above the scanline `y` (has a smaller y-coordinate). -/
def crossing (pi pj : SDL_Point) (y : Int) : Bool :=
  (decide (pi.y < y) && decide (pj.y ≥ y)) || (decide (pj.y < y) && decide (pi.y ≥ y))

/-- The intersection expression of `fillPolygon`, line 54:
`pi.x + (y - pi.y) * (pj.x - pi.x) / (pj.y - pi.y)`. -/
def intersectX (pi pj : SDL_Point) (y : Int) : Option Int :=
  (div32 (mul32 (sub32 y pi.y) (sub32 pj.x pi.x)) (sub32 pj.y pi.y)).map
    (fun q => add32 pi.x q)

/-- The inner loop of `fillPolygon`, lines 50-57: `pj` is `points[j]`, the head of
the list is `points[i]`, and `j = i` after each edge. The result lists `nodeX` in the
order of the `push_back` calls. -/
def scanEdges (y : Int) : SDL_Point → List SDL_Point → Option (List Int)
  | _, [] => some []
  | pj, pi :: rest =>
    if crossing pi pj y then
      match intersectX pi pj y with
      | none => none
      | some x => (scanEdges y pi rest).map (fun xs => x :: xs)
    else scanEdges y pi rest

/-- The vector `nodeX` of one scanline: `j` starts at `points.size() - 1`. -/
def nodeX (points : List SDL_Point) (y : Int) : Option (List Int) :=
  match points.getLast? with
  | none => some []
  | some last => scanEdges y last points

/-- The drawing loop of `fillPolygon`, lines 59-65: `i` advances by two and a line is
drawn only when `i + 1 < nodeX.size()`. -/
def drawSpans (y : Int) : List Int → List DrawLine
  | [] => []
  | [_] => []
  | a :: b :: rest => ⟨a, y, b, y⟩ :: drawSpans y rest

/-- The y-coordinate `std::minmax_element` reports as smallest. -/
def minY : List SDL_Point → Int
  | [] => 0
  | p :: ps => ps.foldl (fun m q => if q.y < m then q.y else m) p.y

/-- The y-coordinate `std::minmax_element` reports as largest. -/
def maxY : List SDL_Point → Int
  | [] => 0
  | p :: ps => ps.foldl (fun m q => if m ≤ q.y then q.y else m) p.y

/-- The outer loop of `fillPolygon`, lines 46-66, over `n` scanlines from `y` on. -/
def fillRows (points : List SDL_Point) : Int → Nat → Option (List DrawLine)
  | _, 0 => some []
  | y, n + 1 =>
    match nodeX points y with
    | none => none
    | some xs =>
      (fillRows points (y + 1) n).map
        (fun r => drawSpans y (List.insertionSort (fun a b => a ≤ b) xs) ++ r)

/-- The function `fillPolygon` of `utils.cpp`: the list of lines drawn, or `none`
when a division by zero is reached. The scanlines run from the smallest to the largest
y-coordinate; the loop counter `y` is taken not to overflow past the largest one. -/
def fillPolygon (points : List SDL_Point) : Option (List DrawLine) :=
  if points.length < 3 then some []
  else fillRows points (minY points) (maxY points - minY points + 1).toNat

/-- The number of edges the inner loop of `fillPolygon` accepts. -/
def crossCount (y : Int) : SDL_Point → List SDL_Point → Nat
  | _, [] => 0
  | pj, pi :: rest => (if crossing pi pj y then 1 else 0) + crossCount y pi rest

/-- The edges of the closed polygon, taken cyclically: each point paired with its
predecessor, the first point with the last. -/
def cyclicEdges : List SDL_Point → List (SDL_Point × SDL_Point)
  | [] => []
  | p :: ps => List.zip (p :: ps) ((p :: ps).getLast (by simp) :: (p :: ps).dropLast)

/-- Exactly one endpoint of the edge has a y-coordinate strictly below `y`. -/
def oneBelow (y : Int) (e : SDL_Point × SDL_Point) : Bool :=
  (decide (e.1.y < y)) != (decide (e.2.y < y))

/-- Whether the point lies strictly above the scanline `y`. -/
def below (y : Int) (p : SDL_Point) : Bool := decide (p.y < y)

/-- The endpoints of the drawn spans, in drawing order. -/
def spanEnds : List DrawLine → List Int
  | [] => []
  | l :: ls => l.x1 :: l.x2 :: spanEnds ls

/-! ## `main.cpp`: constants and enumerations -/

/-- The constant `SCREEN_WIDTH` of `main.cpp`, line 15. -/
def SCREEN_WIDTH : Int := 1200

/-- The constant `SCREEN_HEIGHT` of `main.cpp`, line 16. -/
def SCREEN_HEIGHT : Int := 800

/-- The constant `FPS` of `main.cpp`, line 17. -/
def FPS : Int := 60

/-- The constant `FRAME_DELAY = 1000 / FPS` of `main.cpp`, line 18: a division of `int` values. -/
def FRAME_DELAY : Int := Int.tdiv 1000 FPS

/-- The value `deltaTime = FRAME_DELAY / 1000.0f` of `main.cpp`, line 234, as the exact quotient
(the single-precision value is the float nearest to it). -/
def deltaTime : Rat := (FRAME_DELAY : Rat) / 1000

/-- The enumeration `GameState` of `main.cpp`. -/
inductive GameState where
  | RUNNING
  | WON
  | LOST
deriving DecidableEq, Repr

/-- The enumeration `Bonus::Type` used by `runGame`. -/
inductive BonusType where
  | EXTRA_LIFE
  | MULTI_BALL
  | SMALL_PLATFORM
deriving DecidableEq, Repr

/-- An `SDL_Event` as `runGame` reads it: of type `SDL_QUIT`, or anything else. -/
inductive Event where
  | SDL_QUIT
  | other (code : Int)
deriving DecidableEq, Repr

/-! ## The classes used by `runGame` -/

/-- Modelled from the spec: the `Ball` class (`includes/ball.hpp` and its
implementation are not among the sources). Section 3: position (x, y continuous),
radius, velocity vector (vx, vy). -/
structure Ball where
  x : Rat
  y : Rat
  radius : Rat
  vx : Rat
  vy : Rat
deriving DecidableEq, Repr

/-- Modelled from the spec: the accessor `Ball::getY`, absent from the sources. -/
def Ball.getY (b : Ball) : Rat := b.y

/-- Modelled from the spec: the accessor `Ball::getRadius`, absent from the sources. -/
def Ball.getRadius (b : Ball) : Rat := b.radius

/-- Modelled from the spec: the `Platform` class (`includes/platform.hpp` is not among
the sources). Section 3: position, width, height, velocity, a "small" flag with
expiry. -/
structure Platform where
  x : Rat
  y : Rat
  width : Rat
  height : Rat
  velocity : Rat
  small : Bool
  smallTimer : Rat
deriving DecidableEq, Repr

/-- Modelled from the spec: the `Brick` class (`includes/brick.hpp` is not among the
sources). Section 3: rectangle bounds, hit-point counter, `destroyed` flag,
`justDestroyed` one-frame edge flag, `hit` one-frame edge flag. -/
structure Brick where
  rect : SDL_Rect
  durability : Int
  destroyed : Bool
  justDestroyed : Bool
  hit : Bool
deriving DecidableEq, Repr

/-- Modelled from the spec: `Brick::isDestroyed`, absent from the sources, reports the
`destroyed` flag. -/
def Brick.isDestroyed (b : Brick) : Bool := b.destroyed

/-- Modelled from the spec: `Brick::isHit`, absent from the sources, reports the `hit`
flag. -/
def Brick.isHit (b : Brick) : Bool := b.hit

/-- Modelled from the spec: `Brick::resetHitFlag`, absent from the sources, clears the
`hit` flag (section 4.7, step 5). -/
def Brick.resetHitFlag (b : Brick) : Brick := { b with hit := false }

/-- Modelled from the spec: `Brick::wasJustDestroyed`, absent from the sources, reports
the `justDestroyed` flag and, being a one-shot flag, clears it with the read. No
property below depends on the clearing. -/
def Brick.wasJustDestroyed (b : Brick) : Bool × Brick :=
  (b.justDestroyed, { b with justDestroyed := false })

/-- Modelled from the spec: `Brick::getRect`, absent from the sources. -/
def Brick.getRect (b : Brick) : SDL_Rect := b.rect

/-- Modelled from the spec: the `Bonus` class (`includes/bonus.hpp` is not among the
sources). Section 3: position, type tag. -/
structure Bonus where
  x : Rat
  y : Rat
  type : BonusType
deriving DecidableEq, Repr

/-- Modelled from the spec: the constructor `Bonus(x, y, type)`, absent from the
sources. -/
def Bonus.create (x y : Int) (type : BonusType) : Bonus := ⟨x, y, type⟩

/-- Modelled from the spec: `Bonus::getType`, absent from the sources. -/
def Bonus.getType (b : Bonus) : BonusType := b.type

/-- The behaviour of the classes `Ball`, `Platform`, `Brick`, `Bonus` and of
`SDL_HasIntersection` that `runGame` calls and that is not under `src/`: taken as
parameters. -/
structure Ops where
  /-- The constructor `Platform(screenWidth, screenHeight)`. -/
  newPlatform : Int → Int → Platform
  /-- The constructor `Ball(screenWidth, screenHeight)`. -/
  newBall : Int → Int → Ball
  /-- The method `Platform::handleEvent`. -/
  handleEvent : Event → Platform → Platform
  /-- The method `Platform::getRect`. -/
  platformRect : Platform → SDL_Rect
  /-- The method `Platform::applySmallPlatformMalus`. -/
  applySmallPlatformMalus : Platform → Platform
  /-- The method `Ball::checkCollisionWithPlatform`. -/
  checkCollisionWithPlatform : SDL_Rect → Ball → Ball
  /-- The method `Ball::checkCollisionWithBricks`: it updates the ball and the bricks. -/
  checkCollisionWithBricks : List Brick → Ball → Ball × List Brick
  /-- The static method `Bonus::getSize`. -/
  bonusSize : Int
  /-- The method `Bonus::isOffScreen`. -/
  isOffScreen : Bonus → Bool
  /-- The method `Bonus::getRect`. -/
  bonusRect : Bonus → SDL_Rect
  /-- The SDL function `SDL_HasIntersection`. -/
  hasIntersection : SDL_Rect → SDL_Rect → Bool

/-- The `move` and `update` methods, which receive a time step. -/
structure Motion where
  /-- The method `Platform::move`. -/
  platformMove : Rat → Platform → Platform
  /-- The method `Platform::update`. -/
  platformUpdate : Rat → Platform → Platform
  /-- The method `Ball::move`. -/
  ballMove : Rat → Ball → Ball
  /-- The method `Bonus::move`. -/
  bonusMove : Rat → Bonus → Bonus

/-! ## `main.cpp`: the game loop -/

/-- The function `createAdditionalBalls` of `main.cpp`, lines 188-194; `newBall` is the
constructor `Ball(screen_width, screen_height)`. -/
def createAdditionalBalls (newBall : Int → Int → Ball) (balls : List Ball)
    (screen_width screen_height : Int) : List Ball :=
  if balls.length < 3 then
    createAdditionalBalls newBall (balls ++ [newBall screen_width screen_height])
      screen_width screen_height
  else balls
termination_by 3 - balls.length
decreasing_by simp only [List.length_append, List.length_singleton]; omega

/-- The local variables of `runGame` that live across frames, and the brick vector it
receives by reference. -/
structure Round where
  platform : Platform
  balls : List Ball
  lives : Int
  score : Int
  bonuses : List Bonus
  bricks : List Brick
deriving DecidableEq, Repr

/-- What one frame reads from outside: the queued events, the successive results of
`std::rand()`, and the two readings of `SDL_GetTicks()`. -/
structure FrameInput where
  events : List Event
  rand : Nat → Nat
  startTime : Nat
  endTime : Nat

/-- The state of `runGame` before the first frame, lines 207-213. -/
def initRound (ops : Ops) (bricks : List Brick) : Round :=
  { platform := ops.newPlatform SCREEN_WIDTH SCREEN_HEIGHT
    balls := [ops.newBall SCREEN_WIDTH SCREEN_HEIGHT]
    lives := 3
    score := 0
    bonuses := []
    bricks := bricks }

/-- The event loop, lines 224-232: `true` when an `SDL_QUIT` event is polled, and the
platform as the events before it left it. -/
def pollEvents (handleEvent : Event → Platform → Platform) :
    List Event → Platform → Bool × Platform
  | [], p => (false, p)
  | Event.SDL_QUIT :: _, p => (true, p)
  | Event.other c :: es, p => pollEvents handleEvent es (handleEvent (Event.other c) p)

/-- Lines 224-232 on the round. -/
def eventStage (ops : Ops) (events : List Event) (s : Round) : Bool × Round :=
  ((pollEvents ops.handleEvent events s.platform).1,
    { s with platform := (pollEvents ops.handleEvent events s.platform).2 })

/-- Lines 236-242: the platform and every ball advance by `deltaTime`. -/
def moveStage (mo : Motion) (s : Round) : Round :=
  { s with
    platform := mo.platformUpdate deltaTime (mo.platformMove deltaTime s.platform)
    balls := s.balls.map (mo.ballMove deltaTime) }

/-- The removal test of line 246. -/
def crossedBottom (b : Ball) : Bool := decide (b.getY + 2 * b.getRadius ≥ (SCREEN_HEIGHT : Rat))

/-- Lines 244-254: the balls that crossed the bottom are erased. -/
def removalStage (s : Round) : Round :=
  { s with balls := s.balls.filter (fun b => !crossedBottom b) }

/-- Lines 256-261: the ball-loss step. -/
def lossStage (ops : Ops) (s : Round) : Round :=
  if s.balls.isEmpty then
    { s with
      lives := s.lives - 1
      score := s.score - 50
      balls := s.balls ++ [ops.newBall SCREEN_WIDTH SCREEN_HEIGHT] }
  else s

/-- Lines 268-272 over the ball vector: each ball meets the platform, then the bricks. -/
def collideBalls (hitPlatform : SDL_Rect → Ball → Ball)
    (hitBricks : List Brick → Ball → Ball × List Brick) (rect : SDL_Rect) :
    List Ball → List Brick → List Ball × List Brick
  | [], bricks => ([], bricks)
  | b :: bs, bricks =>
    let r := hitBricks bricks (hitPlatform rect b)
    let rest := collideBalls hitPlatform hitBricks rect bs r.2
    (r.1 :: rest.1, rest.2)

/-- Lines 268-272 on the round. -/
def collisionStage (ops : Ops) (s : Round) : Round :=
  let r := collideBalls ops.checkCollisionWithPlatform ops.checkCollisionWithBricks
    (ops.platformRect s.platform) s.balls s.bricks
  { s with balls := r.1, bricks := r.2 }

/-- The bonus-spawn decision, lines 311-328, for the draw `randNum`. -/
def spawnBonus (bonusSize : Int) (brick : Brick) (randNum : Int) (bonuses : List Bonus) :
    List Bonus :=
  if randNum < 5 then
    let bonusX := sub32 (add32 brick.getRect.x (Int.tdiv brick.getRect.w 2)) (Int.tdiv bonusSize 2)
    let bonusY := add32 brick.getRect.y brick.getRect.h
    bonuses ++ [Bonus.create bonusX bonusY BonusType.EXTRA_LIFE]
  else if randNum < 10 then
    let bonusX := sub32 (add32 brick.getRect.x (Int.tdiv brick.getRect.w 2)) (Int.tdiv bonusSize 2)
    let bonusY := add32 brick.getRect.y brick.getRect.h
    bonuses ++ [Bonus.create bonusX bonusY BonusType.MULTI_BALL]
  else if randNum < 15 then
    let bonusX := sub32 (add32 brick.getRect.x (Int.tdiv brick.getRect.w 2)) (Int.tdiv bonusSize 2)
    let bonusY := add32 brick.getRect.y brick.getRect.h
    bonuses ++ [Bonus.create bonusX bonusY BonusType.SMALL_PLATFORM]
  else bonuses

/-- What the brick loop of lines 283-330 carries from brick to brick: the flag
`allBricksDestroyed`, the score, the number of calls of `std::rand()` made so far in
the frame, and the bonus vector. -/
structure PassState where
  allBricksDestroyed : Bool
  score : Int
  calls : Nat
  bonuses : List Bonus
deriving DecidableEq, Repr

/-- The body of the brick loop, lines 286-329, for one brick. The render calls draw
and leave the state as it is. -/
def brickStep (bonusSize : Int) (rand : Nat → Nat) (st : PassState) (brick : Brick) :
    PassState × Brick :=
  if !brick.isDestroyed then
    if brick.isHit then
      ({ st with allBricksDestroyed := false, score := st.score + 10 }, brick.resetHitFlag)
    else
      ({ st with allBricksDestroyed := false }, brick)
  else if brick.wasJustDestroyed.1 then
    ({ st with
        score := st.score + 150
        calls := st.calls + 1
        bonuses := spawnBonus bonusSize brick.wasJustDestroyed.2
          ((rand st.calls % 100 : Nat) : Int) st.bonuses },
      brick.wasJustDestroyed.2)
  else (st, brick.wasJustDestroyed.2)

/-- The brick loop, lines 284-330. -/
def brickPass (bonusSize : Int) (rand : Nat → Nat) :
    PassState → List Brick → PassState × List Brick
  | st, [] => (st, [])
  | st, brick :: rest =>
    let r := brickStep bonusSize rand st brick
    let t := brickPass bonusSize rand r.1 rest
    (t.1, r.2 :: t.2)

/-- Lines 283-330 on the round: the flag `allBricksDestroyed` and the round after
the loop. -/
def brickStage (ops : Ops) (rand : Nat → Nat) (s : Round) : Bool × Round :=
  let r := brickPass ops.bonusSize rand ⟨true, s.score, 0, s.bonuses⟩ s.bricks
  (r.1.allBricksDestroyed, { s with score := r.1.score, bonuses := r.1.bonuses, bricks := r.2 })

/-- What the bonus loop of lines 337-370 carries from bonus to bonus. -/
structure BonusState where
  platform : Platform
  balls : List Ball
  lives : Int
  kept : List Bonus
deriving DecidableEq, Repr

/-- The body of the bonus loop, lines 339-368, for one bonus; `move` is
`Bonus::move` at the time step of the frame. -/
def bonusStep (ops : Ops) (move : Bonus → Bonus) (st : BonusState) (bonus : Bonus) :
    BonusState :=
  if ops.isOffScreen (move bonus) then st
  else if ops.hasIntersection (ops.bonusRect (move bonus)) (ops.platformRect st.platform) then
    if (move bonus).getType = BonusType.EXTRA_LIFE then
      { st with lives := st.lives + 1 }
    else if (move bonus).getType = BonusType.MULTI_BALL then
      { st with balls := createAdditionalBalls ops.newBall st.balls SCREEN_WIDTH SCREEN_HEIGHT }
    else if (move bonus).getType = BonusType.SMALL_PLATFORM then
      { st with platform := ops.applySmallPlatformMalus st.platform }
    else st
  else { st with kept := st.kept ++ [move bonus] }

/-- The bonus loop, lines 337-370. -/
def bonusPass (ops : Ops) (move : Bonus → Bonus) : BonusState → List Bonus → BonusState
  | st, [] => st
  | st, bonus :: rest => bonusPass ops move (bonusStep ops move st bonus) rest

/-- Lines 337-370 on the round. -/
def bonusStage (ops : Ops) (mo : Motion) (s : Round) : Round :=
  let r := bonusPass ops (mo.bonusMove deltaTime) ⟨s.platform, s.balls, s.lives, []⟩ s.bonuses
  { s with platform := r.platform, balls := r.balls, lives := r.lives, bonuses := r.kept }

/-- The round after lines 224-242 of a frame: events handled, platform and balls
moved. -/
def afterMove (ops : Ops) (mo : Motion) (inp : FrameInput) (s : Round) : Round :=
  moveStage mo (eventStage ops inp.events s).2

/-- The round after the ball-removal pass of a frame, lines 244-254. -/
def afterRemoval (ops : Ops) (mo : Motion) (inp : FrameInput) (s : Round) : Round :=
  removalStage (afterMove ops mo inp s)

/-- The round after the ball-loss step of a frame, lines 256-261. -/
def afterLoss (ops : Ops) (mo : Motion) (inp : FrameInput) (s : Round) : Round :=
  lossStage ops (afterRemoval ops mo inp s)

/-- The round after the collision loop of a frame, lines 268-272. -/
def afterCollision (ops : Ops) (mo : Motion) (inp : FrameInput) (s : Round) : Round :=
  collisionStage ops (afterLoss ops mo inp s)

/-- The flag `allBricksDestroyed` and the round after the brick loop of a frame,
lines 283-330. -/
def afterBricks (ops : Ops) (mo : Motion) (inp : FrameInput) (s : Round) : Bool × Round :=
  brickStage ops inp.rand (afterCollision ops mo inp s)

/-- One iteration of the loop of `runGame`, lines 220-389: the state returned with
`WON` or `LOST` is the one at the `return`; `RUNNING` means the loop goes on. -/
def frame (ops : Ops) (mo : Motion) (inp : FrameInput) (s : Round) : GameState × Round :=
  if (eventStage ops inp.events s).1 then (GameState.LOST, (eventStage ops inp.events s).2)
  else if (afterLoss ops mo inp s).lives ≤ 0 then (GameState.LOST, afterLoss ops mo inp s)
  else if (afterBricks ops mo inp s).1 then (GameState.WON, (afterBricks ops mo inp s).2)
  else (GameState.RUNNING, bonusStage ops mo (afterBricks ops mo inp s).2)

/-- The measured frame time, line 384, in `Uint32` arithmetic. -/
def frameTime (inp : FrameInput) : Nat :=
  (inp.endTime % 4294967296 + 4294967296 - inp.startTime % 4294967296) % 4294967296

/-- The argument of `SDL_Delay`, lines 385-388, when it is called. -/
def frameDelay (inp : FrameInput) : Option Nat :=
  if (frameTime inp : Int) < FRAME_DELAY then some (FRAME_DELAY.toNat - frameTime inp) else none

/-- The loop of `runGame` over the frames whose inputs are given; `RUNNING` when they
are used up with the loop still going. -/
def runFrames (ops : Ops) (mo : Motion) : List FrameInput → Round → GameState × Round
  | [], s => (GameState.RUNNING, s)
  | inp :: rest, s =>
    match frame ops mo inp s with
    | (GameState.RUNNING, s') => runFrames ops mo rest s'
    | r => r

/-- The function `runGame` of `main.cpp` on the brick vector `bricks`, over the frames
whose inputs are given. -/
def runGame (ops : Ops) (mo : Motion) (bricks : List Brick) (inputs : List FrameInput) :
    GameState × Round :=
  runFrames ops mo inputs (initRound ops bricks)

/-! ## A sample instance of the parameters -/

/-- A sample of the class behaviour: a ball takes one point of durability from the
first brick that is not destroyed and whose lower edge it has reached. -/
def sampleHitBricks : List Brick → Ball → Ball × List Brick
  | [], ball => (ball, [])
  | k :: ks, ball =>
    if k.destroyed || decide (ball.y > ((k.rect.y + k.rect.h : Int) : Rat)) then
      ((sampleHitBricks ks ball).1, k :: (sampleHitBricks ks ball).2)
    else if k.durability ≤ 1 then
      ({ ball with vy := -ball.vy },
        { k with durability := 0, destroyed := true, justDestroyed := true } :: ks)
    else
      ({ ball with vy := -ball.vy }, { k with durability := k.durability - 1, hit := true } :: ks)

/-- A sample of the class behaviour, used to evaluate the loop on concrete inputs; a
new ball appears just above the bottom edge, moving down. -/
def sampleOps : Ops :=
  { newPlatform := fun w h => ⟨w / 2 - 50, h - 30, 100, 20, 0, false, 0⟩
    newBall := fun w _ => ⟨w / 2, 778, 10, 0, 200⟩
    handleEvent := fun _ p => p
    platformRect := fun _ => ⟨550, 770, 100, 20⟩
    applySmallPlatformMalus := fun p => { p with small := true }
    checkCollisionWithPlatform := fun _ b => b
    checkCollisionWithBricks := sampleHitBricks
    bonusSize := 20
    isOffScreen := fun b => decide (b.y ≥ 800)
    bonusRect := fun _ => ⟨0, 0, 20, 20⟩
    hasIntersection := fun a b => checkCollision a b }

/-- A sample of the `move` and `update` methods: position advances by velocity times
the time step. -/
def sampleMotion : Motion :=
  { platformMove := fun dt p => { p with x := p.x + p.velocity * dt }
    platformUpdate := fun _ p => p
    ballMove := fun dt b => { b with x := b.x + b.vx * dt, y := b.y + b.vy * dt }
    bonusMove := fun dt b => { b with y := b.y + 100 * dt } }

/-- A sample frame input without events, every draw being 7. -/
def sampleInput : FrameInput :=
  { events := [], rand := fun _ => 7, startTime := 0, endTime := 3 }

/-- A sample brick of durability 5 at the top left of the field. -/
def sampleBrick : Brick := ⟨⟨10, 10, 109, 20⟩, 5, false, false, false⟩

/-- A sample of the `move` and `update` methods that agrees with `sampleMotion` at the
time step 2/125 and leaves the balls where they are at every other time step. -/
def sampleMotionAlt : Motion :=
  { sampleMotion with
    ballMove := fun dt b => if dt = 2 / 125 then sampleMotion.ballMove dt b else b }

/-- The sample round two frames into the run on `sampleBrick`: one life left. -/
def sampleLastLife : Round :=
  { platform := ⟨550, 770, 100, 20, 0, false, 0⟩
    balls := [⟨600, 778, 10, 0, 200⟩]
    lives := 1
    score := -100
    bonuses := []
    bricks := [sampleBrick] }

/-- A sample round with one life, a ball moving up under the last brick, which has
durability 1. -/
def sampleLastBrick : Round :=
  { platform := ⟨550, 770, 100, 20, 0, false, 0⟩
    balls := [⟨600, 32, 10, 0, -200⟩]
    lives := 1
    score := 0
    bonuses := []
    bricks := [{ sampleBrick with durability := 1 }] }

/-! ## Properties of `checkCollision` -/

theorem wrap32_of_isInt32 {n : Int} (h : isInt32 n) : wrap32 n = n := by
  unfold isInt32 at h
  unfold wrap32
  omega

theorem checkCollision_machine (a b : SDL_Rect) :
    checkCollision a b = true ↔
      (add32 a.x a.w ≥ b.x ∧ a.x ≤ add32 b.x b.w ∧ add32 a.y a.h ≥ b.y ∧ a.y ≤ add32 b.y b.h) := by
  simp only [checkCollision, Bool.not_eq_true', Bool.or_eq_false_iff, decide_eq_false_iff_not,
    not_lt, ge_iff_le, gt_iff_lt, and_assoc]

theorem checkCollision_exact (a b : SDL_Rect) (h : sumsFit a b) :
    checkCollision a b = true ↔
      (a.x + a.w ≥ b.x ∧ a.x ≤ b.x + b.w ∧ a.y + a.h ≥ b.y ∧ a.y ≤ b.y + b.h) := by
  obtain ⟨h1, h2, h3, h4⟩ := h
  rw [checkCollision_machine]
  simp only [add32, wrap32_of_isInt32 h1, wrap32_of_isInt32 h2, wrap32_of_isInt32 h3,
    wrap32_of_isInt32 h4]

/-- C1. `checkCollision a b` holds exactly when the inclusive bound test
`a.x + a.w >= b.x`, `a.x <= b.x + b.w`, `a.y + a.h >= b.y`, `a.y <= b.y + b.h` holds:
with the machine sums for all rectangles, and with the exact sums whenever they fit
in an `int`. Rectangles of non-negative size that only touch along an edge or at a
corner intersect. -/
theorem checkCollision_iff_inclusive_overlap (a b : SDL_Rect) :
    (checkCollision a b = true ↔
      (add32 a.x a.w ≥ b.x ∧ a.x ≤ add32 b.x b.w ∧
        add32 a.y a.h ≥ b.y ∧ a.y ≤ add32 b.y b.h)) ∧
    (sumsFit a b →
      (checkCollision a b = true ↔
        (a.x + a.w ≥ b.x ∧ a.x ≤ b.x + b.w ∧ a.y + a.h ≥ b.y ∧ a.y ≤ b.y + b.h)) ∧
      (0 ≤ a.w → 0 ≤ b.w → a.x + a.w = b.x → a.y ≤ b.y + b.h → b.y ≤ a.y + a.h →
        checkCollision a b = true) ∧
      (0 ≤ a.h → 0 ≤ b.h → a.y + a.h = b.y → a.x ≤ b.x + b.w → b.x ≤ a.x + a.w →
        checkCollision a b = true) ∧
      (0 ≤ a.w → 0 ≤ b.w → 0 ≤ a.h → 0 ≤ b.h → a.x + a.w = b.x → a.y + a.h = b.y →
        checkCollision a b = true)) := by
  refine ⟨checkCollision_machine a b, fun h => ⟨checkCollision_exact a b h, ?_, ?_, ?_⟩⟩
  · intro _ _ _ _ _
    rw [checkCollision_exact a b h]
    omega
  · intro _ _ _ _ _
    rw [checkCollision_exact a b h]
    omega
  · intro _ _ _ _ _ _
    rw [checkCollision_exact a b h]
    omega

/-- C1 at two squares that share only the corner (10, 10). -/
theorem checkCollision_iff_inclusive_overlap_witness :
    sumsFit ⟨0, 0, 10, 10⟩ ⟨10, 10, 5, 5⟩ ∧
      checkCollision ⟨0, 0, 10, 10⟩ ⟨10, 10, 5, 5⟩ = true :=
  ⟨by decide,
    ((checkCollision_iff_inclusive_overlap ⟨0, 0, 10, 10⟩ ⟨10, 10, 5, 5⟩).2 (by decide)).2.2.2
      (by decide) (by decide) (by decide) (by decide) (by decide) (by decide)⟩

/-! ## Properties of `fillPolygon` -/

theorem crossing_ne {pi pj : SDL_Point} {y : Int} (h : crossing pi pj y = true) :
    pi.y ≠ pj.y := by
  simp only [crossing, Bool.or_eq_true, Bool.and_eq_true, decide_eq_true_eq] at h
  omega

theorem sub32_ne_zero {a b : Int} (ha : isInt32 a) (hb : isInt32 b) (hne : a ≠ b) :
    sub32 a b ≠ 0 := by
  unfold isInt32 at ha hb
  unfold sub32 wrap32
  omega

theorem crossing_divisor_ne_zero {pi pj : SDL_Point} {y : Int} (hi : isInt32 pi.y)
    (hj : isInt32 pj.y) (h : crossing pi pj y = true) : sub32 pj.y pi.y ≠ 0 :=
  sub32_ne_zero hj hi (fun e => crossing_ne h e.symm)

theorem intersectX_some {pi pj : SDL_Point} {y : Int} (hi : isInt32 pi.y)
    (hj : isInt32 pj.y) (h : crossing pi pj y = true) : ∃ x, intersectX pi pj y = some x := by
  have hd := crossing_divisor_ne_zero hi hj h
  simp [intersectX, div32, hd]

theorem scanEdges_some (y : Int) : ∀ (ps : List SDL_Point) (pj : SDL_Point),
    isInt32 pj.y → (∀ p ∈ ps, isInt32 p.y) →
    ∃ xs, scanEdges y pj ps = some xs ∧ xs.length = crossCount y pj ps := by
  intro ps
  induction ps with
  | nil => intro pj _ _; exact ⟨[], rfl, rfl⟩
  | cons pi rest ih =>
    intro pj hj hps
    have hi : isInt32 pi.y := hps pi (List.mem_cons_self _ _)
    obtain ⟨xs, hxs, hlen⟩ := ih pi hi (fun p hp => hps p (List.mem_cons_of_mem _ hp))
    by_cases hc : crossing pi pj y = true
    · obtain ⟨x, hx⟩ := intersectX_some hi hj hc
      refine ⟨x :: xs, ?_, ?_⟩
      · simp [scanEdges, hc, hx, hxs]
      · simp [crossCount, hc, hlen]; omega
    · refine ⟨xs, ?_, ?_⟩
      · simp [scanEdges, hc, hxs]
      · simp [crossCount, hc, hlen]

theorem nodeX_some (points : List SDL_Point) (y : Int) (h : ∀ p ∈ points, isInt32 p.y) :
    ∃ xs, nodeX points y = some xs := by
  unfold nodeX
  cases hl : points.getLast? with
  | none => exact ⟨[], rfl⟩
  | some last =>
    have hmem : last ∈ points := List.mem_of_getLast?_eq_some hl
    obtain ⟨xs, hxs, _⟩ := scanEdges_some y points last (h last hmem) h
    exact ⟨xs, hxs⟩

theorem fillRows_some (points : List SDL_Point) (h : ∀ p ∈ points, isInt32 p.y) :
    ∀ (n : Nat) (y : Int), ∃ ls, fillRows points y n = some ls := by
  intro n
  induction n with
  | zero => intro y; exact ⟨[], rfl⟩
  | succ n ih =>
    intro y
    obtain ⟨xs, hxs⟩ := nodeX_some points y h
    obtain ⟨ls, hls⟩ := ih (y + 1)
    exact ⟨drawSpans y (List.insertionSort (fun a b => a ≤ b) xs) ++ ls, by
      simp [fillRows, hxs, hls]⟩

/-- C9. `fillPolygon` never divides by zero. A list of fewer than 3 points draws
nothing. For points whose y-coordinates are `int` values, an edge that satisfies the
crossing condition has endpoints of different y and a non-zero divisor
`points[j].y - points[i].y`; so every scanline yields its `nodeX` and the whole fill
yields its list of lines. -/
theorem fillPolygon_no_division_by_zero (points : List SDL_Point) :
    (points.length < 3 → fillPolygon points = some []) ∧
    ((∀ p ∈ points, isInt32 p.y) →
      (∀ pi ∈ points, ∀ pj ∈ points, ∀ y : Int, crossing pi pj y = true →
        pi.y ≠ pj.y ∧ sub32 pj.y pi.y ≠ 0 ∧ ∃ x, intersectX pi pj y = some x) ∧
      (∀ y : Int, ∃ xs, nodeX points y = some xs) ∧
      (∃ ls, fillPolygon points = some ls)) := by
  refine ⟨fun h => by simp [fillPolygon, h], fun hr => ⟨?_, ?_, ?_⟩⟩
  · intro pi hpi pj hpj y hc
    exact ⟨crossing_ne hc, crossing_divisor_ne_zero (hr pi hpi) (hr pj hpj) hc,
      intersectX_some (hr pi hpi) (hr pj hpj) hc⟩
  · intro y
    exact nodeX_some points y hr
  · unfold fillPolygon
    split
    · exact ⟨[], rfl⟩
    · exact fillRows_some points hr _ _

/-- C9 at a quadrilateral with two horizontal edges and at a two-point list. -/
theorem fillPolygon_no_division_by_zero_witness :
    fillPolygon [⟨0, 0⟩, ⟨10, 0⟩] = some [] ∧
      (∃ xs, nodeX [⟨0, 0⟩, ⟨10, 0⟩, ⟨10, 3⟩, ⟨0, 3⟩] 0 = some xs) ∧
      (∃ ls, fillPolygon [⟨0, 0⟩, ⟨10, 0⟩, ⟨10, 3⟩, ⟨0, 3⟩] = some ls) :=
  ⟨(fillPolygon_no_division_by_zero [⟨0, 0⟩, ⟨10, 0⟩]).1 (by decide),
    ((fillPolygon_no_division_by_zero [⟨0, 0⟩, ⟨10, 0⟩, ⟨10, 3⟩, ⟨0, 3⟩]).2
      (by decide)).2.1 0,
    ((fillPolygon_no_division_by_zero [⟨0, 0⟩, ⟨10, 0⟩, ⟨10, 3⟩, ⟨0, 3⟩]).2
      (by decide)).2.2⟩

theorem crossing_eq_bne (pi pj : SDL_Point) (y : Int) :
    crossing pi pj y = (below y pi != below y pj) := by
  unfold crossing below
  by_cases h1 : pi.y < y <;> by_cases h2 : pj.y < y <;> simp [h1, h2] <;> omega

theorem crossCount_parity (y : Int) : ∀ (ps : List SDL_Point) (pj : SDL_Point),
    crossCount y pj ps % 2 =
      if below y pj = below y ((pj :: ps).getLast (by simp)) then 0 else 1 := by
  intro ps
  induction ps with
  | nil => intro pj; simp [crossCount]
  | cons pi rest ih =>
    intro pj
    have h := ih pi
    rw [List.getLast_cons (by simp)]
    simp only [crossCount, crossing_eq_bne]
    revert h
    generalize below y ((pi :: rest).getLast (by simp)) = bl
    generalize crossCount y pi rest = c
    cases below y pi <;> cases below y pj <;> cases bl <;> simp <;> omega

theorem crossCount_cyclic_even (y : Int) (points : List SDL_Point) (last : SDL_Point)
    (h : points.getLast? = some last) : crossCount y last points % 2 = 0 := by
  cases points with
  | nil => simp at h
  | cons p ps =>
    rw [crossCount_parity]
    have : (last :: p :: ps).getLast (by simp) = last := by
      rw [List.getLast_cons (by simp)]
      rw [List.getLast?_eq_getLast _ (by simp)] at h
      exact Option.some.inj h
    simp [this]

theorem crossCount_eq_countP (y : Int) : ∀ (ps : List SDL_Point) (pj : SDL_Point),
    crossCount y pj ps = List.countP (oneBelow y) (List.zip ps (pj :: ps.dropLast)) := by
  intro ps
  induction ps with
  | nil => intro pj; simp [crossCount]
  | cons pi rest ih =>
    intro pj
    cases rest with
    | nil =>
      simp [crossCount, crossing_eq_bne, oneBelow, below, List.countP_cons]
    | cons q qs =>
      have h := ih pi
      rw [List.dropLast_cons₂, List.zip_cons_cons, List.countP_cons, ← h]
      simp only [crossCount, crossing_eq_bne, oneBelow, below]
      omega

theorem spanEnds_drawSpans (y : Int) :
    ∀ s : List Int, s.length % 2 = 0 → spanEnds (drawSpans y s) = s
  | [], _ => rfl
  | [_], h => by simp at h
  | a :: b :: rest, h => by
    have hr : rest.length % 2 = 0 := by
      simp only [List.length_cons] at h
      omega
    simp [drawSpans, spanEnds, spanEnds_drawSpans y rest hr]

theorem drawSpans_ordered (y : Int) :
    ∀ s : List Int, List.Sorted (fun a b => a ≤ b) s →
      ∀ l ∈ drawSpans y s, l.x1 ≤ l.x2 ∧ l.y1 = y ∧ l.y2 = y
  | [], _ => by simp [drawSpans]
  | [_], _ => by simp [drawSpans]
  | a :: b :: rest, h => by
    intro l hl
    simp only [drawSpans, List.mem_cons] at hl
    have hab : a ≤ b := List.rel_of_sorted_cons h b (List.mem_cons_self _ _)
    have hrest : List.Sorted (fun a b => a ≤ b) rest := (List.Sorted.of_cons h).of_cons
    rcases hl with hl | hl
    · subst hl
      exact ⟨hab, rfl, rfl⟩
    · exact drawSpans_ordered y rest hrest l hl

theorem nodeX_length (points : List SDL_Point) (y : Int) (h : ∀ p ∈ points, isInt32 p.y) :
    ∃ xs, nodeX points y = some xs ∧
      xs.length = List.countP (oneBelow y) (cyclicEdges points) ∧ xs.length % 2 = 0 := by
  cases points with
  | nil => exact ⟨[], rfl, rfl, rfl⟩
  | cons p ps =>
    have hl : (p :: ps).getLast? = some ((p :: ps).getLast (by simp)) :=
      List.getLast?_eq_getLast _ _
    have hmem : (p :: ps).getLast (by simp) ∈ p :: ps := List.getLast_mem _
    obtain ⟨xs, hxs, hlen⟩ := scanEdges_some y (p :: ps) _ (h _ hmem) h
    refine ⟨xs, ?_, ?_, ?_⟩
    · simp only [nodeX, hl, hxs]
    · rw [hlen, crossCount_eq_countP]
      rfl
    · rw [hlen]
      exact crossCount_cyclic_even y _ _ hl

/-- C10. For points whose y-coordinates are `int` values and every scanline `y`, the
vector `nodeX` holds one entry per cyclic edge with exactly one endpoint strictly
below `y`, and their number is even. Hence the guard `i + 1 < nodeX.size()` drops
nothing: the endpoints of the drawn spans, in order, are the sorted `nodeX`, a
rearrangement of the collected intersections, and every span lies on the scanline
with its left end not beyond its right end. -/
theorem fillPolygon_scanline_even (points : List SDL_Point) (y : Int)
    (h : ∀ p ∈ points, isInt32 p.y) :
    ∃ xs, nodeX points y = some xs ∧
      xs.length = List.countP (oneBelow y) (cyclicEdges points) ∧
      xs.length % 2 = 0 ∧
      spanEnds (drawSpans y (List.insertionSort (fun a b => a ≤ b) xs)) =
        List.insertionSort (fun a b => a ≤ b) xs ∧
      (spanEnds (drawSpans y (List.insertionSort (fun a b => a ≤ b) xs))).Perm xs ∧
      2 * (drawSpans y (List.insertionSort (fun a b => a ≤ b) xs)).length = xs.length ∧
      ∀ l ∈ drawSpans y (List.insertionSort (fun a b => a ≤ b) xs),
        l.x1 ≤ l.x2 ∧ l.y1 = y ∧ l.y2 = y := by
  obtain ⟨xs, hxs, hcount, heven⟩ := nodeX_length points y h
  have hs : (List.insertionSort (fun a b : Int => a ≤ b) xs).length % 2 = 0 := by
    rw [List.length_insertionSort]
    exact heven
  have hends := spanEnds_drawSpans y _ hs
  refine ⟨xs, hxs, hcount, heven, hends, ?_, ?_, ?_⟩
  · rw [hends]
    exact List.perm_insertionSort _ xs
  · have : (spanEnds (drawSpans y (List.insertionSort (fun a b => a ≤ b) xs))).length =
        2 * (drawSpans y (List.insertionSort (fun a b => a ≤ b) xs)).length := by
      generalize drawSpans y (List.insertionSort (fun a b => a ≤ b) xs) = ls
      induction ls with
      | nil => rfl
      | cons l ls ih => simp only [spanEnds, List.length_cons, ih]; omega
    rw [← this, hends, List.length_insertionSort]
  · exact drawSpans_ordered y _ (List.sorted_insertionSort _ xs)

/-- C10 at the triangle (0,0), (10,0), (5,5) on scanline 2. -/
theorem fillPolygon_scanline_even_witness :
    (∀ p ∈ [SDL_Point.mk 0 0, ⟨10, 0⟩, ⟨5, 5⟩], isInt32 p.y) ∧
    ∃ xs, nodeX [⟨0, 0⟩, ⟨10, 0⟩, ⟨5, 5⟩] 2 = some xs ∧
      xs.length = List.countP (oneBelow 2) (cyclicEdges [⟨0, 0⟩, ⟨10, 0⟩, ⟨5, 5⟩]) ∧
      xs.length % 2 = 0 ∧
      spanEnds (drawSpans 2 (List.insertionSort (fun a b => a ≤ b) xs)) =
        List.insertionSort (fun a b => a ≤ b) xs ∧
      (spanEnds (drawSpans 2 (List.insertionSort (fun a b => a ≤ b) xs))).Perm xs ∧
      2 * (drawSpans 2 (List.insertionSort (fun a b => a ≤ b) xs)).length = xs.length ∧
      ∀ l ∈ drawSpans 2 (List.insertionSort (fun a b => a ≤ b) xs),
        l.x1 ≤ l.x2 ∧ l.y1 = 2 ∧ l.y2 = 2 :=
  ⟨by decide, fillPolygon_scanline_even [⟨0, 0⟩, ⟨10, 0⟩, ⟨5, 5⟩] 2 (by decide)⟩

/-! ## Properties of `createAdditionalBalls` -/

theorem createAdditionalBalls_eq (newBall : Int → Int → Ball) (w h : Int) :
    ∀ (k : Nat) (balls : List Ball), 3 - balls.length = k →
      createAdditionalBalls newBall balls w h = balls ++ List.replicate k (newBall w h) := by
  intro k
  induction k with
  | zero =>
    intro balls hk
    rw [createAdditionalBalls, if_neg (by omega)]
    simp
  | succ k ih =>
    intro balls hk
    rw [createAdditionalBalls, if_pos (by omega)]
    rw [ih (balls ++ [newBall w h]) (by simp only [List.length_append, List.length_singleton]; omega)]
    simp [List.replicate_succ]

/-- C7. `createAdditionalBalls` is a total function; on a collection of `n` balls it
returns `max n 3` balls, the first `n` being the original ones in order and the others
freshly constructed; one ball becomes three, and three or more are left as they
are. -/
theorem createAdditionalBalls_spec (newBall : Int → Int → Ball) (balls : List Ball)
    (w h : Int) :
    (createAdditionalBalls newBall balls w h).length = max balls.length 3 ∧
    (createAdditionalBalls newBall balls w h).take balls.length = balls ∧
    (createAdditionalBalls newBall balls w h).drop balls.length =
      List.replicate (3 - balls.length) (newBall w h) ∧
    (balls.length = 1 → (createAdditionalBalls newBall balls w h).length = 3) ∧
    (3 ≤ balls.length → createAdditionalBalls newBall balls w h = balls) := by
  have e := createAdditionalBalls_eq newBall w h (3 - balls.length) balls rfl
  rw [e]
  refine ⟨?_, ?_, ?_, ?_, ?_⟩
  · simp only [List.length_append, List.length_replicate]
    omega
  · simp
  · simp
  · intro h1
    simp only [List.length_append, List.length_replicate]
    omega
  · intro h3
    have : 3 - balls.length = 0 := by omega
    rw [this]
    simp

/-! ## Properties of the bonus-spawn decision -/

theorem spawnBonus_ranges (bonusSize : Int) (brick : Brick) (raw : Nat)
    (bonuses : List Bonus) :
    raw % 100 < 100 ∧
    (raw % 100 < 5 ↔
      ∃ b, b.getType = BonusType.EXTRA_LIFE ∧
        spawnBonus bonusSize brick ((raw % 100 : Nat) : Int) bonuses = bonuses ++ [b]) ∧
    (5 ≤ raw % 100 ∧ raw % 100 < 10 ↔
      ∃ b, b.getType = BonusType.MULTI_BALL ∧
        spawnBonus bonusSize brick ((raw % 100 : Nat) : Int) bonuses = bonuses ++ [b]) ∧
    (10 ≤ raw % 100 ∧ raw % 100 < 15 ↔
      ∃ b, b.getType = BonusType.SMALL_PLATFORM ∧
        spawnBonus bonusSize brick ((raw % 100 : Nat) : Int) bonuses = bonuses ++ [b]) ∧
    (15 ≤ raw % 100 ↔
      spawnBonus bonusSize brick ((raw % 100 : Nat) : Int) bonuses = bonuses) ∧
    (spawnBonus bonusSize brick ((raw % 100 : Nat) : Int) bonuses).length ≤
      bonuses.length + 1 := by
  have hr : raw % 100 < 100 := Nat.mod_lt _ (by decide)
  revert hr
  generalize raw % 100 = r
  intro hr
  have hne : ∀ b : Bonus, bonuses ++ [b] ≠ bonuses := fun b e => by
    have := congrArg List.length e
    simp at this
  by_cases h5 : r < 5
  · have c5 : ((r : Nat) : Int) < 5 := by omega
    simp only [spawnBonus, if_pos c5]
    refine ⟨hr, ⟨fun _ => by refine ⟨_, ?_, rfl⟩; rfl, fun _ => h5⟩, ⟨fun h => by omega, ?_⟩,
      ⟨fun h => by omega, ?_⟩, ⟨fun h => by omega, fun e => absurd e (hne _)⟩, by simp⟩
    · rintro ⟨b, hb, e⟩
      have := List.append_cancel_left e
      simp only [List.cons.injEq, and_true] at this
      subst this
      simp [Bonus.getType, Bonus.create] at hb
    · rintro ⟨b, hb, e⟩
      have := List.append_cancel_left e
      simp only [List.cons.injEq, and_true] at this
      subst this
      simp [Bonus.getType, Bonus.create] at hb
  · have c5 : ¬ ((r : Nat) : Int) < 5 := by omega
    by_cases h10 : r < 10
    · have c10 : ((r : Nat) : Int) < 10 := by omega
      simp only [spawnBonus, if_neg c5, if_pos c10]
      refine ⟨hr, ⟨fun h => by omega, ?_⟩, ⟨fun _ => by refine ⟨_, ?_, rfl⟩; rfl, fun _ => ⟨by omega, h10⟩⟩,
        ⟨fun h => by omega, ?_⟩, ⟨fun h => by omega, fun e => absurd e (hne _)⟩, by simp⟩
      · rintro ⟨b, hb, e⟩
        have := List.append_cancel_left e
        simp only [List.cons.injEq, and_true] at this
        subst this
        simp [Bonus.getType, Bonus.create] at hb
      · rintro ⟨b, hb, e⟩
        have := List.append_cancel_left e
        simp only [List.cons.injEq, and_true] at this
        subst this
        simp [Bonus.getType, Bonus.create] at hb
    · have c10 : ¬ ((r : Nat) : Int) < 10 := by omega
      by_cases h15 : r < 15
      · have c15 : ((r : Nat) : Int) < 15 := by omega
        simp only [spawnBonus, if_neg c5, if_neg c10, if_pos c15]
        refine ⟨hr, ⟨fun h => by omega, ?_⟩, ⟨fun h => by omega, ?_⟩,
          ⟨fun _ => by refine ⟨_, ?_, rfl⟩; rfl, fun _ => ⟨by omega, h15⟩⟩,
          ⟨fun h => by omega, fun e => absurd e (hne _)⟩, by simp⟩
        · rintro ⟨b, hb, e⟩
          have := List.append_cancel_left e
          simp only [List.cons.injEq, and_true] at this
          subst this
          simp [Bonus.getType, Bonus.create] at hb
        · rintro ⟨b, hb, e⟩
          have := List.append_cancel_left e
          simp only [List.cons.injEq, and_true] at this
          subst this
          simp [Bonus.getType, Bonus.create] at hb
      · have c15 : ¬ ((r : Nat) : Int) < 15 := by omega
        simp only [spawnBonus, if_neg c5, if_neg c10, if_neg c15]
        refine ⟨hr, ⟨fun h => by omega, ?_⟩, ⟨fun h => by omega, ?_⟩, ⟨fun h => by omega, ?_⟩,
          ⟨fun _ => trivial, fun _ => by omega⟩, by simp⟩
        · rintro ⟨b, _, e⟩
          exact absurd e.symm (hne b)
        · rintro ⟨b, _, e⟩
          exact absurd e.symm (hne b)
        · rintro ⟨b, _, e⟩
          exact absurd e.symm (hne b)

theorem brickStep_bonuses (bonusSize : Int) (rand : Nat → Nat) (st : PassState)
    (brick : Brick) (hd : brick.isDestroyed = true) (hj : brick.wasJustDestroyed.1 = true) :
    (brickStep bonusSize rand st brick).1.bonuses =
      spawnBonus bonusSize brick.wasJustDestroyed.2 ((rand st.calls % 100 : Nat) : Int)
        st.bonuses := by
  simp [brickStep, hd, hj]

/-- C5. For every brick the loop of `runGame` finds just destroyed and the draw
`r = rand() % 100`, which lies in 0..99, the loop body appends exactly one `EXTRA_LIFE`
bonus iff `r < 5`, exactly one `MULTI_BALL` bonus iff `5 <= r < 10`, exactly one
`SMALL_PLATFORM` bonus iff `10 <= r < 15`, and leaves the bonus vector as it is iff
`15 <= r`; at most one bonus is appended. -/
theorem bonus_spawn_ranges (bonusSize : Int) (rand : Nat → Nat) (st : PassState)
    (brick : Brick) (hd : brick.isDestroyed = true) (hj : brick.wasJustDestroyed.1 = true) :
    rand st.calls % 100 < 100 ∧
    (rand st.calls % 100 < 5 ↔
      ∃ b, b.getType = BonusType.EXTRA_LIFE ∧
        (brickStep bonusSize rand st brick).1.bonuses = st.bonuses ++ [b]) ∧
    (5 ≤ rand st.calls % 100 ∧ rand st.calls % 100 < 10 ↔
      ∃ b, b.getType = BonusType.MULTI_BALL ∧
        (brickStep bonusSize rand st brick).1.bonuses = st.bonuses ++ [b]) ∧
    (10 ≤ rand st.calls % 100 ∧ rand st.calls % 100 < 15 ↔
      ∃ b, b.getType = BonusType.SMALL_PLATFORM ∧
        (brickStep bonusSize rand st brick).1.bonuses = st.bonuses ++ [b]) ∧
    (15 ≤ rand st.calls % 100 ↔
      (brickStep bonusSize rand st brick).1.bonuses = st.bonuses) ∧
    (brickStep bonusSize rand st brick).1.bonuses.length ≤ st.bonuses.length + 1 := by
  rw [brickStep_bonuses bonusSize rand st brick hd hj]
  exact spawnBonus_ranges bonusSize brick.wasJustDestroyed.2 (rand st.calls) st.bonuses

/-- C5 at a destroyed brick whose draw is 7: one `MULTI_BALL` bonus is appended. -/
theorem bonus_spawn_ranges_witness :
    (Brick.mk ⟨100, 50, 109, 20⟩ 0 true true false).isDestroyed = true ∧
    (Brick.mk ⟨100, 50, 109, 20⟩ 0 true true false).wasJustDestroyed.1 = true ∧
    ∃ b, b.getType = BonusType.MULTI_BALL ∧
      (brickStep 20 (fun _ => 7) ⟨true, 0, 0, []⟩
        (Brick.mk ⟨100, 50, 109, 20⟩ 0 true true false)).1.bonuses = [] ++ [b] :=
  ⟨rfl, rfl,
    (bonus_spawn_ranges 20 (fun _ => 7) ⟨true, 0, 0, []⟩
      (Brick.mk ⟨100, 50, 109, 20⟩ 0 true true false) rfl rfl).2.2.1.mp
      ⟨by decide, by decide⟩⟩

/-! ## Properties of the brick loop -/

theorem brickStep_score (bonusSize : Int) (rand : Nat → Nat) (st : PassState) (brick : Brick) :
    (brickStep bonusSize rand st brick).1.score =
      st.score + 150 * (if (brick.isDestroyed && brick.wasJustDestroyed.1) = true then 1 else 0) +
        10 * (if (!brick.isDestroyed && brick.isHit) = true then 1 else 0) := by
  unfold brickStep
  cases hd : brick.isDestroyed <;> cases hh : brick.isHit <;>
    cases hj : brick.wasJustDestroyed.1 <;> simp

theorem brickPass_score (bonusSize : Int) (rand : Nat → Nat) :
    ∀ (bricks : List Brick) (st : PassState),
      (brickPass bonusSize rand st bricks).1.score =
        st.score +
          150 * (List.countP (fun b => b.isDestroyed && b.wasJustDestroyed.1) bricks : Int) +
          10 * (List.countP (fun b => !b.isDestroyed && b.isHit) bricks : Int) := by
  intro bricks
  induction bricks with
  | nil => intro st; simp [brickPass]
  | cons k ks ih =>
    intro st
    simp only [brickPass, ih, brickStep_score, List.countP_cons]
    push_cast
    ring

theorem brickStep_isDestroyed (bonusSize : Int) (rand : Nat → Nat) (st : PassState)
    (brick : Brick) : (brickStep bonusSize rand st brick).2.isDestroyed = brick.isDestroyed := by
  unfold brickStep
  cases hd : brick.isDestroyed <;> cases hh : brick.isHit <;>
    cases hj : brick.wasJustDestroyed.1 <;>
    simp_all [Brick.isDestroyed, Brick.resetHitFlag, Brick.wasJustDestroyed]

theorem brickStep_hit_cleared (bonusSize : Int) (rand : Nat → Nat) (st : PassState)
    (brick : Brick) (h : (brickStep bonusSize rand st brick).2.isDestroyed = false) :
    (brickStep bonusSize rand st brick).2.isHit = false := by
  rw [brickStep_isDestroyed] at h
  unfold brickStep
  cases hh : brick.isHit <;> simp_all [Brick.isHit, Brick.resetHitFlag]

theorem brickPass_hit_cleared (bonusSize : Int) (rand : Nat → Nat) :
    ∀ (bricks : List Brick) (st : PassState),
      ∀ b ∈ (brickPass bonusSize rand st bricks).2, b.isDestroyed = false → b.isHit = false := by
  intro bricks
  induction bricks with
  | nil => intro st b hb; simp [brickPass] at hb
  | cons k ks ih =>
    intro st b hb hd
    simp only [brickPass, List.mem_cons] at hb
    rcases hb with hb | hb
    · subst hb
      exact brickStep_hit_cleared bonusSize rand st k hd
    · exact ih _ b hb hd

/-- C6. The score change of one frame's brick loop is 150 times the number of bricks
that are destroyed and report `justDestroyed`, plus 10 times the number of bricks that
are not destroyed and report `hit`. In the loop body a destroyed brick that reports
`justDestroyed` earns 150 (whatever its `hit` flag), a brick hit but not destroyed
earns 10 and is left as `resetHitFlag` makes it, with its `hit` flag cleared, and
every other brick earns nothing; after the loop no brick that is not destroyed has
its `hit` flag set. -/
theorem brick_pass_score (bonusSize : Int) (rand : Nat → Nat) (st : PassState)
    (bricks : List Brick) :
    (brickPass bonusSize rand st bricks).1.score - st.score =
      150 * (List.countP (fun b => b.isDestroyed && b.wasJustDestroyed.1) bricks : Int) +
        10 * (List.countP (fun b => !b.isDestroyed && b.isHit) bricks : Int) ∧
    (∀ (brick : Brick) (t : PassState),
      (brick.isDestroyed = true → brick.wasJustDestroyed.1 = true →
        (brickStep bonusSize rand t brick).1.score = t.score + 150) ∧
      (brick.isDestroyed = false → brick.isHit = true →
        (brickStep bonusSize rand t brick).1.score = t.score + 10 ∧
        (brickStep bonusSize rand t brick).2 = brick.resetHitFlag ∧
        (brickStep bonusSize rand t brick).2.isHit = false) ∧
      (brick.isDestroyed = true → brick.wasJustDestroyed.1 = false →
        (brickStep bonusSize rand t brick).1.score = t.score) ∧
      (brick.isDestroyed = false → brick.isHit = false →
        (brickStep bonusSize rand t brick).1.score = t.score)) ∧
    (∀ b ∈ (brickPass bonusSize rand st bricks).2, b.isDestroyed = false → b.isHit = false) := by
  refine ⟨?_, ?_, brickPass_hit_cleared bonusSize rand bricks st⟩
  · rw [brickPass_score]
    ring
  · intro brick t
    refine ⟨?_, ?_, ?_, ?_⟩
    · intro hd hj
      rw [brickStep_score]
      simp [hd, hj]
    · intro hd hh
      refine ⟨?_, ?_, ?_⟩
      · rw [brickStep_score]
        simp [hd, hh]
      · simp [brickStep, hd, hh]
      · have e : (brickStep bonusSize rand t brick).2 = brick.resetHitFlag := by
          simp [brickStep, hd, hh]
        rw [e]
        rfl
    · intro hd hj
      rw [brickStep_score]
      simp [hd, hj]
    · intro hd hh
      rw [brickStep_score]
      simp [hd, hh]

/-- C6 at a brick of durability 1 destroyed in this frame (with its `hit` flag set)
and a brick hit but not destroyed: 150 for the first, 10 for the second. -/
theorem brick_pass_score_witness :
    (brickPass 20 (fun _ => 50) ⟨true, 0, 0, []⟩
      [Brick.mk ⟨0, 0, 109, 20⟩ 0 true true true,
        Brick.mk ⟨119, 0, 109, 20⟩ 1 false false true]).1.score - 0 = 160 ∧
    (brickStep 20 (fun _ => 50) ⟨true, 0, 0, []⟩
      (Brick.mk ⟨0, 0, 109, 20⟩ 0 true true true)).1.score = 0 + 150 ∧
    (brickStep 20 (fun _ => 50) ⟨true, 0, 0, []⟩
      (Brick.mk ⟨119, 0, 109, 20⟩ 1 false false true)).1.score = 0 + 10 :=
  ⟨(brick_pass_score 20 (fun _ => 50) ⟨true, 0, 0, []⟩
      [Brick.mk ⟨0, 0, 109, 20⟩ 0 true true true,
        Brick.mk ⟨119, 0, 109, 20⟩ 1 false false true]).1.trans (by decide),
    ((brick_pass_score 20 (fun _ => 50) ⟨true, 0, 0, []⟩ []).2.1
      (Brick.mk ⟨0, 0, 109, 20⟩ 0 true true true) ⟨true, 0, 0, []⟩).1 rfl rfl,
    (((brick_pass_score 20 (fun _ => 50) ⟨true, 0, 0, []⟩ []).2.1
      (Brick.mk ⟨119, 0, 109, 20⟩ 1 false false true) ⟨true, 0, 0, []⟩).2.1 rfl rfl).1⟩

/-! ## Properties of the ball-loss step -/

theorem lossStage_lives_cases (ops : Ops) (mo : Motion) (inp : FrameInput) (s : Round) :
    ((afterRemoval ops mo inp s).balls = [] →
      (afterLoss ops mo inp s).lives = s.lives - 1) ∧
    ((afterRemoval ops mo inp s).balls ≠ [] →
      (afterLoss ops mo inp s).lives = s.lives) := by
  refine ⟨?_, ?_⟩
  · intro h
    have e : (afterLoss ops mo inp s) =
        { afterRemoval ops mo inp s with
          lives := (afterRemoval ops mo inp s).lives - 1
          score := (afterRemoval ops mo inp s).score - 50
          balls := (afterRemoval ops mo inp s).balls ++
            [ops.newBall SCREEN_WIDTH SCREEN_HEIGHT] } := by
      simp [afterLoss, lossStage, h]
    rw [e]
    rfl
  · intro h
    have e : afterLoss ops mo inp s = afterRemoval ops mo inp s := by
      simp [afterLoss, lossStage, h]
    rw [e]
    rfl

/-- C2. In every frame the removal pass keeps exactly the balls with
`y + 2*radius < SCREEN_HEIGHT`. When it leaves the collection empty, the ball-loss step
takes 1 from `lives` and 50 from `score` and leaves exactly one ball, a new one, in
the collection (in particular when `lives` is still positive); when a ball survives
the pass, the step changes neither `lives` nor `score` nor the collection. -/
theorem ball_loss_step (ops : Ops) (mo : Motion) (inp : FrameInput) (s : Round) :
    (afterRemoval ops mo inp s).balls =
      (afterMove ops mo inp s).balls.filter
        (fun b => decide (b.getY + 2 * b.getRadius < (SCREEN_HEIGHT : Rat))) ∧
    ((afterRemoval ops mo inp s).balls = [] →
      (afterLoss ops mo inp s).lives = s.lives - 1 ∧
      (afterLoss ops mo inp s).score = s.score - 50 ∧
      (afterLoss ops mo inp s).balls = [ops.newBall SCREEN_WIDTH SCREEN_HEIGHT] ∧
      (0 < (afterLoss ops mo inp s).lives → (afterLoss ops mo inp s).balls.length = 1)) ∧
    ((afterRemoval ops mo inp s).balls ≠ [] →
      (afterLoss ops mo inp s).lives = s.lives ∧
      (afterLoss ops mo inp s).score = s.score ∧
      (afterLoss ops mo inp s).balls = (afterRemoval ops mo inp s).balls) := by
  refine ⟨?_, ?_, ?_⟩
  · simp only [afterRemoval, removalStage, crossedBottom]
    congr 1
    funext b
    simp only [ge_iff_le, ← not_lt, decide_not, Bool.not_not]
  · intro h
    have e : (afterLoss ops mo inp s) =
        { afterRemoval ops mo inp s with
          lives := (afterRemoval ops mo inp s).lives - 1
          score := (afterRemoval ops mo inp s).score - 50
          balls := (afterRemoval ops mo inp s).balls ++
            [ops.newBall SCREEN_WIDTH SCREEN_HEIGHT] } := by
      simp [afterLoss, lossStage, h]
    rw [e]
    simp only [h, List.nil_append, List.length_singleton, implies_true, and_true]
    exact ⟨rfl, rfl⟩
  · intro h
    have e : afterLoss ops mo inp s = afterRemoval ops mo inp s := by
      simp [afterLoss, lossStage, h]
    rw [e]
    exact ⟨rfl, rfl, rfl⟩

/-! ## Properties of the frame and of the run -/

theorem pollEvents_quit (handleEvent : Event → Platform → Platform) :
    ∀ (events : List Event) (p : Platform),
      (pollEvents handleEvent events p).1 = true ↔ Event.SDL_QUIT ∈ events := by
  intro events
  induction events with
  | nil => intro p; simp [pollEvents]
  | cons e es ih =>
    intro p
    cases e with
    | SDL_QUIT => simp [pollEvents]
    | other c => simp [pollEvents, ih]

theorem afterRemoval_lives (ops : Ops) (mo : Motion) (inp : FrameInput) (s : Round) :
    (afterRemoval ops mo inp s).lives = s.lives := rfl

theorem afterLoss_lives (ops : Ops) (mo : Motion) (inp : FrameInput) (s : Round) :
    (afterLoss ops mo inp s).lives =
      if (afterRemoval ops mo inp s).balls = [] then s.lives - 1 else s.lives := by
  by_cases h : (afterRemoval ops mo inp s).balls = []
  · rw [if_pos h]
    exact ((lossStage_lives_cases ops mo inp s).1 h)
  · rw [if_neg h]
    exact ((lossStage_lives_cases ops mo inp s).2 h)

theorem bonusStep_lives (ops : Ops) (move : Bonus → Bonus) (st : BonusState) (bonus : Bonus) :
    st.lives ≤ (bonusStep ops move st bonus).lives := by
  unfold bonusStep
  split
  · exact le_refl _
  · split
    · split
      · simp
      · split
        · exact le_refl _
        · split <;> exact le_refl _
    · exact le_refl _

theorem bonusPass_lives (ops : Ops) (move : Bonus → Bonus) :
    ∀ (bonuses : List Bonus) (st : BonusState),
      st.lives ≤ (bonusPass ops move st bonuses).lives := by
  intro bonuses
  induction bonuses with
  | nil => intro st; exact le_refl _
  | cons b bs ih =>
    intro st
    exact le_trans (bonusStep_lives ops move st b) (ih _)

theorem afterBricks_lives (ops : Ops) (mo : Motion) (inp : FrameInput) (s : Round) :
    (afterBricks ops mo inp s).2.lives = (afterLoss ops mo inp s).lives := rfl

theorem bonusStage_lives (ops : Ops) (mo : Motion) (s : Round) :
    s.lives ≤ (bonusStage ops mo s).lives :=
  bonusPass_lives ops _ s.bonuses _

theorem frame_cases (ops : Ops) (mo : Motion) (inp : FrameInput) (s : Round) :
    (Event.SDL_QUIT ∈ inp.events ∧
      frame ops mo inp s = (GameState.LOST, (eventStage ops inp.events s).2)) ∨
    (Event.SDL_QUIT ∉ inp.events ∧ (afterLoss ops mo inp s).lives ≤ 0 ∧
      frame ops mo inp s = (GameState.LOST, afterLoss ops mo inp s)) ∨
    (Event.SDL_QUIT ∉ inp.events ∧ 0 < (afterLoss ops mo inp s).lives ∧
      (afterBricks ops mo inp s).1 = true ∧
      frame ops mo inp s = (GameState.WON, (afterBricks ops mo inp s).2)) ∨
    (Event.SDL_QUIT ∉ inp.events ∧ 0 < (afterLoss ops mo inp s).lives ∧
      (afterBricks ops mo inp s).1 = false ∧
      frame ops mo inp s =
        (GameState.RUNNING, bonusStage ops mo (afterBricks ops mo inp s).2)) := by
  have hq : (eventStage ops inp.events s).1 = true ↔ Event.SDL_QUIT ∈ inp.events :=
    pollEvents_quit ops.handleEvent inp.events s.platform
  unfold frame
  by_cases h1 : (eventStage ops inp.events s).1 = true
  · left
    exact ⟨hq.mp h1, by rw [if_pos h1]⟩
  · right
    have hnq : Event.SDL_QUIT ∉ inp.events := fun h => h1 (hq.mpr h)
    rw [if_neg h1]
    by_cases h2 : (afterLoss ops mo inp s).lives ≤ 0
    · left
      exact ⟨hnq, h2, by rw [if_pos h2]⟩
    · right
      rw [if_neg h2]
      by_cases h3 : (afterBricks ops mo inp s).1 = true
      · left
        exact ⟨hnq, by omega, h3, by rw [if_pos h3]⟩
      · right
        exact ⟨hnq, by omega, by simpa using h3, by rw [if_neg h3]⟩

theorem frame_running_lives (ops : Ops) (mo : Motion) (inp : FrameInput) (s s' : Round)
    (h : frame ops mo inp s = (GameState.RUNNING, s')) : 1 ≤ s'.lives := by
  rcases frame_cases ops mo inp s with ⟨_, e⟩ | ⟨_, _, e⟩ | ⟨_, _, _, e⟩ | ⟨_, hl, _, e⟩
  · rw [e] at h; cases h
  · rw [e] at h; cases h
  · rw [e] at h; cases h
  · rw [e] at h
    cases h
    have := bonusStage_lives ops mo (afterBricks ops mo inp s).2
    rw [afterBricks_lives] at this
    omega

theorem runFrames_running_lives (ops : Ops) (mo : Motion) :
    ∀ (inputs : List FrameInput) (s0 s : Round),
      runFrames ops mo inputs s0 = (GameState.RUNNING, s) → 1 ≤ s0.lives → 1 ≤ s.lives := by
  intro inputs
  induction inputs with
  | nil =>
    intro s0 s h h0
    simp only [runFrames, Prod.mk.injEq, true_and] at h
    rw [← h]
    exact h0
  | cons inp rest ih =>
    intro s0 s h _
    unfold runFrames at h
    cases hf : frame ops mo inp s0 with
    | mk g s1 =>
      rw [hf] at h
      cases g with
      | RUNNING => exact ih s1 s h (frame_running_lives ops mo inp s0 s1 hf)
      | WON => cases h
      | LOST => cases h

theorem runFrames_snoc (ops : Ops) (mo : Motion) (inp : FrameInput) :
    ∀ (inputs : List FrameInput) (s0 s : Round),
      runFrames ops mo inputs s0 = (GameState.RUNNING, s) →
      runFrames ops mo (inputs ++ [inp]) s0 = frame ops mo inp s := by
  intro inputs
  induction inputs with
  | nil =>
    intro s0 s h
    simp only [runFrames, Prod.mk.injEq, true_and] at h
    subst h
    simp only [List.nil_append, runFrames]
    cases hf : frame ops mo inp s0 with
    | mk g s1 => cases g <;> rfl
  | cons i rest ih =>
    intro s0 s h
    simp only [List.cons_append]
    unfold runFrames at h ⊢
    cases hf : frame ops mo i s0 with
    | mk g s1 =>
      rw [hf] at h
      cases g with
      | RUNNING => exact ih s1 s h
      | WON => cases h
      | LOST => cases h

/-- C3. In every run of `runGame`, at the start of every frame `lives` is at least 1
(it starts at 3). The frame returns `LOST` exactly when a quit event is polled in it
or `lives` is `<= 0` after the ball-loss step; the latter happens exactly when
`lives` was 1 and the removal pass emptied the ball collection, and then `lives` is
exactly 0. The run that ends with this frame returns what the frame returns, and the
`lives` of the state it returns is never negative. -/
theorem lost_iff_quit_or_no_lives (ops : Ops) (mo : Motion) (bricks : List Brick)
    (inputs : List FrameInput) (inp : FrameInput) (s : Round)
    (h : runGame ops mo bricks inputs = (GameState.RUNNING, s)) :
    (initRound ops bricks).lives = 3 ∧
    1 ≤ s.lives ∧
    runGame ops mo bricks (inputs ++ [inp]) = frame ops mo inp s ∧
    ((frame ops mo inp s).1 = GameState.LOST ↔
      (Event.SDL_QUIT ∈ inp.events ∨ (afterLoss ops mo inp s).lives ≤ 0)) ∧
    ((afterLoss ops mo inp s).lives ≤ 0 ↔
      (s.lives = 1 ∧ (afterRemoval ops mo inp s).balls = [])) ∧
    ((afterLoss ops mo inp s).lives ≤ 0 → (afterLoss ops mo inp s).lives = 0) ∧
    0 ≤ (afterLoss ops mo inp s).lives ∧
    0 ≤ (frame ops mo inp s).2.lives := by
  have hs : 1 ≤ s.lives :=
    runFrames_running_lives ops mo inputs (initRound ops bricks) s h
      (show (1 : Int) ≤ 3 by decide)
  have hl := afterLoss_lives ops mo inp s
  refine ⟨rfl, hs, runFrames_snoc ops mo inp inputs _ s h, ?_, ?_, ?_, ?_, ?_⟩
  · rcases frame_cases ops mo inp s with ⟨hq, e⟩ | ⟨_, h2, e⟩ | ⟨hq, h2, _, e⟩ | ⟨hq, h2, _, e⟩
    · rw [e]; simp [hq]
    · rw [e]; simp [h2]
    · rw [e]
      constructor
      · intro c; cases c
      · rintro (c | c)
        · exact absurd c hq
        · omega
    · rw [e]
      constructor
      · intro c; cases c
      · rintro (c | c)
        · exact absurd c hq
        · omega
  · rw [hl]
    split <;> rename_i hb
    · constructor
      · intro c; exact ⟨by omega, hb⟩
      · rintro ⟨c, _⟩; omega
    · constructor
      · intro c; omega
      · rintro ⟨_, c⟩; exact absurd c hb
  · rw [hl]
    split <;> intro c <;> omega
  · rw [hl]
    split <;> omega
  · rcases frame_cases ops mo inp s with ⟨_, e⟩ | ⟨_, _, e⟩ | ⟨_, h2, _, e⟩ | ⟨_, h2, _, e⟩
    · rw [e]
      show 0 ≤ s.lives
      omega
    · rw [e, hl]
      split <;> omega
    · rw [e, afterBricks_lives]
      omega
    · rw [e]
      have := bonusStage_lives ops mo (afterBricks ops mo inp s).2
      rw [afterBricks_lives] at this
      show 0 ≤ (bonusStage ops mo (afterBricks ops mo inp s).2).lives
      omega

theorem brickStep_all (bonusSize : Int) (rand : Nat → Nat) (st : PassState) (brick : Brick) :
    (brickStep bonusSize rand st brick).1.allBricksDestroyed =
      (st.allBricksDestroyed && brick.isDestroyed) := by
  unfold brickStep
  cases hd : brick.isDestroyed <;> cases hh : brick.isHit <;>
    cases hj : brick.wasJustDestroyed.1 <;> simp

theorem brickPass_all (bonusSize : Int) (rand : Nat → Nat) :
    ∀ (bricks : List Brick) (st : PassState),
      (brickPass bonusSize rand st bricks).1.allBricksDestroyed =
        (st.allBricksDestroyed && bricks.all (fun b => b.isDestroyed)) := by
  intro bricks
  induction bricks with
  | nil => intro st; simp [brickPass]
  | cons k ks ih =>
    intro st
    simp only [brickPass, ih, brickStep_all, List.all_cons, Bool.and_assoc]

theorem brickPass_isDestroyed (bonusSize : Int) (rand : Nat → Nat) :
    ∀ (bricks : List Brick) (st : PassState),
      (brickPass bonusSize rand st bricks).2.map (fun b => b.isDestroyed) =
        bricks.map (fun b => b.isDestroyed) := by
  intro bricks
  induction bricks with
  | nil => intro st; simp [brickPass]
  | cons k ks ih =>
    intro st
    simp only [brickPass, List.map_cons, brickStep_isDestroyed, ih]

theorem all_isDestroyed_iff (l : List Brick) :
    (∀ b ∈ l, b.isDestroyed = true) ↔ (l.map (fun b => b.isDestroyed)).all (fun x => x) = true := by
  simp

theorem afterBricks_flag (ops : Ops) (mo : Motion) (inp : FrameInput) (s : Round) :
    (afterBricks ops mo inp s).1 = true ↔
      ∀ b ∈ (afterCollision ops mo inp s).bricks, b.isDestroyed = true := by
  simp only [afterBricks, brickStage, brickPass_all, Bool.true_and, List.all_eq_true]

theorem afterBricks_bricks (ops : Ops) (mo : Motion) (inp : FrameInput) (s : Round) :
    (∀ b ∈ (afterBricks ops mo inp s).2.bricks, b.isDestroyed = true) ↔
      ∀ b ∈ (afterCollision ops mo inp s).bricks, b.isDestroyed = true := by
  rw [all_isDestroyed_iff, all_isDestroyed_iff]
  simp only [afterBricks, brickStage, brickPass_isDestroyed]

theorem afterLoss_bricks (ops : Ops) (mo : Motion) (inp : FrameInput) (s : Round) :
    (afterLoss ops mo inp s).bricks = s.bricks := by
  unfold afterLoss lossStage
  split <;> rfl

theorem frame_won_bricks (ops : Ops) (mo : Motion) (inp : FrameInput) (s s' : Round)
    (h : frame ops mo inp s = (GameState.WON, s')) : ∀ b ∈ s'.bricks, b.isDestroyed = true := by
  rcases frame_cases ops mo inp s with ⟨_, e⟩ | ⟨_, _, e⟩ | ⟨_, _, h3, e⟩ | ⟨_, _, _, e⟩
  · rw [e] at h; cases h
  · rw [e] at h; cases h
  · rw [e] at h
    cases h
    exact (afterBricks_bricks ops mo inp s).mpr ((afterBricks_flag ops mo inp s).mp h3)
  · rw [e] at h; cases h

theorem runFrames_won_bricks (ops : Ops) (mo : Motion) :
    ∀ (inputs : List FrameInput) (s0 s : Round),
      runFrames ops mo inputs s0 = (GameState.WON, s) → ∀ b ∈ s.bricks, b.isDestroyed = true := by
  intro inputs
  induction inputs with
  | nil => intro s0 s h; cases h
  | cons inp rest ih =>
    intro s0 s h
    unfold runFrames at h
    cases hf : frame ops mo inp s0 with
    | mk g s1 =>
      rw [hf] at h
      cases g with
      | RUNNING => exact ih s1 s h
      | WON =>
        cases h
        exact frame_won_bricks ops mo inp s0 _ hf
      | LOST => cases h

/-- C4. `runGame` returns `WON` only with every brick destroyed: in the state a frame
or a whole run returns with `WON`, every brick reports `destroyed`. A frame returns
`WON` exactly when no quit event is polled, `lives` is positive after the ball-loss
step and every brick reports `destroyed` after the collisions. In a frame that starts
with a brick not destroyed and ends with every brick destroyed, that is, in which the
final remaining brick becomes destroyed, the result is `WON`, whatever the number of
lives. -/
theorem won_iff_all_bricks_destroyed (ops : Ops) (mo : Motion) (inp : FrameInput)
    (s : Round) :
    ((frame ops mo inp s).1 = GameState.WON →
      ∀ b ∈ (frame ops mo inp s).2.bricks, b.isDestroyed = true) ∧
    ((frame ops mo inp s).1 = GameState.WON ↔
      (Event.SDL_QUIT ∉ inp.events ∧ 0 < (afterLoss ops mo inp s).lives ∧
        ∀ b ∈ (afterCollision ops mo inp s).bricks, b.isDestroyed = true)) ∧
    ((∃ b ∈ s.bricks, b.isDestroyed = false) →
      (∀ b ∈ (frame ops mo inp s).2.bricks, b.isDestroyed = true) →
      (frame ops mo inp s).1 = GameState.WON) ∧
    (∀ (bricks : List Brick) (inputs : List FrameInput) (s' : Round),
      runGame ops mo bricks inputs = (GameState.WON, s') →
      ∀ b ∈ s'.bricks, b.isDestroyed = true) := by
  refine ⟨?_, ?_, ?_, ?_⟩
  · intro hw
    exact frame_won_bricks ops mo inp s _ (Prod.ext hw rfl)
  · rcases frame_cases ops mo inp s with ⟨hq, e⟩ | ⟨_, h2, e⟩ | ⟨hq, h2, h3, e⟩ | ⟨_, _, h3, e⟩
    · rw [e]
      constructor
      · intro c; cases c
      · rintro ⟨c, _⟩; exact absurd hq c
    · rw [e]
      constructor
      · intro c; cases c
      · rintro ⟨_, c, _⟩; omega
    · rw [e]
      constructor
      · intro _
        exact ⟨hq, h2, (afterBricks_flag ops mo inp s).mp h3⟩
      · intro _; rfl
    · rw [e]
      constructor
      · intro c; cases c
      · rintro ⟨_, _, c⟩
        rw [(afterBricks_flag ops mo inp s).mpr c] at h3
        cases h3
  · rintro ⟨b, hb, hbd⟩ hall
    rcases frame_cases ops mo inp s with ⟨_, e⟩ | ⟨_, _, e⟩ | ⟨_, _, _, e⟩ | ⟨_, _, h3, e⟩
    · rw [e] at hall
      have := hall b hb
      rw [hbd] at this
      cases this
    · rw [e] at hall
      have := hall b (by rw [afterLoss_bricks]; exact hb)
      rw [hbd] at this
      cases this
    · rw [e]
    · rw [e] at hall
      have hall' : ∀ b ∈ (afterBricks ops mo inp s).2.bricks, b.isDestroyed = true := hall
      rw [afterBricks_bricks, ← afterBricks_flag, h3] at hall'
      cases hall'
  · intro bricks inputs s' hrun
    exact runFrames_won_bricks ops mo inputs _ s' hrun

/-! ## The time step -/

theorem FRAME_DELAY_eq : FRAME_DELAY = 16 := by decide

theorem deltaTime_eq : deltaTime = 2 / 125 := by
  unfold deltaTime
  rw [FRAME_DELAY_eq]
  norm_num

/-- C8, as the code has it. The time step of every frame is the constant
`deltaTime = FRAME_DELAY / 1000` with `FRAME_DELAY = 1000 / 60 = 16` in integer
arithmetic, that is 16/1000 = 2/125 of a second: a frame depends on the `move` and
`update` methods only through their value at this time step, and not on the readings
of `SDL_GetTicks`, which only set the trailing delay, the rest of the 16 ms. -/
theorem time_step_constant (ops : Ops) (mo mo' : Motion) (inp : FrameInput) (s : Round)
    (hp : mo'.platformMove (2 / 125) = mo.platformMove (2 / 125))
    (hu : mo'.platformUpdate (2 / 125) = mo.platformUpdate (2 / 125))
    (hb : mo'.ballMove (2 / 125) = mo.ballMove (2 / 125))
    (hn : mo'.bonusMove (2 / 125) = mo.bonusMove (2 / 125)) :
    FRAME_DELAY = 16 ∧ deltaTime = 2 / 125 ∧
    frame ops mo' inp s = frame ops mo inp s ∧
    (∀ t0 t1 : Nat,
      frame ops mo { inp with startTime := t0, endTime := t1 } s = frame ops mo inp s) ∧
    (∀ d : Nat, frameDelay inp = some d → d + frameTime inp = 16) := by
  have hd : deltaTime = 2 / 125 := deltaTime_eq
  refine ⟨FRAME_DELAY_eq, hd, ?_, fun _ _ => rfl, ?_⟩
  swap
  · intro d hfd
    unfold frameDelay at hfd
    rw [FRAME_DELAY_eq] at hfd
    split at hfd
    · rename_i hlt
      have e : (16 : Int).toNat = 16 := rfl
      rw [e] at hfd
      have := Option.some.inj hfd
      omega
    · cases hfd
  simp only [frame, afterBricks, afterCollision, afterLoss, afterRemoval, afterMove, moveStage,
    bonusStage, hd, hp, hu, hb, hn]

/-- C8 as stated fails: the time step is 2/125 = 0.016 s, which is 1/1500 s short of
1/60 s. -/
theorem deltaTime_ne_sixtieth : deltaTime = 2 / 125 ∧ deltaTime ≠ 1 / 60 ∧
    1 / 60 - deltaTime = 1 / 1500 := by
  rw [deltaTime_eq]
  norm_num

/-! ## The properties on concrete inputs -/

/-- C2 at the first frame of the sample run: the only ball crosses the bottom, one
life and 50 points go, and one new ball is in play. -/
theorem ball_loss_step_witness :
    (afterRemoval sampleOps sampleMotion sampleInput (initRound sampleOps [sampleBrick])).balls
      = [] ∧
    (afterLoss sampleOps sampleMotion sampleInput (initRound sampleOps [sampleBrick])).lives
      = 3 - 1 ∧
    (afterLoss sampleOps sampleMotion sampleInput (initRound sampleOps [sampleBrick])).score
      = 0 - 50 ∧
    (afterLoss sampleOps sampleMotion sampleInput
      (initRound sampleOps [sampleBrick])).balls.length = 1 :=
  ⟨by with_unfolding_all rfl,
    ((ball_loss_step sampleOps sampleMotion sampleInput (initRound sampleOps [sampleBrick])).2.1
      (by with_unfolding_all rfl)).1,
    ((ball_loss_step sampleOps sampleMotion sampleInput (initRound sampleOps [sampleBrick])).2.1
      (by with_unfolding_all rfl)).2.1,
    ((ball_loss_step sampleOps sampleMotion sampleInput (initRound sampleOps [sampleBrick])).2.1
      (by with_unfolding_all rfl)).2.2.2 (by with_unfolding_all decide)⟩

/-- C3 at the third frame of the sample run: with one life left the last ball crosses
the bottom, `lives` becomes 0 and the frame returns `LOST`. -/
theorem lost_iff_quit_or_no_lives_witness :
    runGame sampleOps sampleMotion [sampleBrick] [sampleInput, sampleInput] =
      (GameState.RUNNING, sampleLastLife) ∧
    (frame sampleOps sampleMotion sampleInput sampleLastLife).1 = GameState.LOST ∧
    (afterLoss sampleOps sampleMotion sampleInput sampleLastLife).lives = 0 :=
  ⟨by with_unfolding_all rfl,
    (lost_iff_quit_or_no_lives sampleOps sampleMotion [sampleBrick] [sampleInput, sampleInput]
      sampleInput sampleLastLife (by with_unfolding_all rfl)).2.2.2.1.mpr
      (Or.inr (by with_unfolding_all decide)),
    (lost_iff_quit_or_no_lives sampleOps sampleMotion [sampleBrick] [sampleInput, sampleInput]
      sampleInput sampleLastLife (by with_unfolding_all rfl)).2.2.2.2.2.1
      (by with_unfolding_all decide)⟩

/-- C4 at a frame in which the last brick is destroyed with one life left. -/
theorem won_iff_all_bricks_destroyed_witness :
    (∃ b ∈ sampleLastBrick.bricks, b.isDestroyed = false) ∧
    (∀ b ∈ (frame sampleOps sampleMotion sampleInput sampleLastBrick).2.bricks,
      b.isDestroyed = true) ∧
    (frame sampleOps sampleMotion sampleInput sampleLastBrick).1 = GameState.WON :=
  ⟨⟨{ sampleBrick with durability := 1 }, List.mem_singleton.mpr rfl, rfl⟩,
    by with_unfolding_all decide,
    (won_iff_all_bricks_destroyed sampleOps sampleMotion sampleInput sampleLastBrick).2.2.1
      ⟨{ sampleBrick with durability := 1 }, List.mem_singleton.mpr rfl, rfl⟩
      (by with_unfolding_all decide)⟩

/-- C7 at one active ball: three balls afterwards, the first being the original. -/
theorem createAdditionalBalls_spec_witness :
    [Ball.mk 600 400 10 0 200].length = 1 ∧
    (createAdditionalBalls sampleOps.newBall [Ball.mk 600 400 10 0 200]
      SCREEN_WIDTH SCREEN_HEIGHT).length = 3 :=
  ⟨rfl,
    (createAdditionalBalls_spec sampleOps.newBall [Ball.mk 600 400 10 0 200]
      SCREEN_WIDTH SCREEN_HEIGHT).2.2.2.1 rfl⟩

/-- C8 at two samples of the `move` methods that differ away from the time step
2/125: the frame is the same. -/
theorem time_step_constant_witness :
    sampleMotionAlt.ballMove (2 / 125) = sampleMotion.ballMove (2 / 125) ∧
    sampleMotionAlt.ballMove 1 ≠ sampleMotion.ballMove 1 ∧
    frame sampleOps sampleMotionAlt sampleInput sampleLastBrick =
      frame sampleOps sampleMotion sampleInput sampleLastBrick :=
  ⟨by funext b; simp [sampleMotionAlt],
    fun e => absurd (congrFun e (Ball.mk 0 0 10 0 200)) (by with_unfolding_all decide),
    (time_step_constant sampleOps sampleMotion sampleMotionAlt sampleInput sampleLastBrick
      rfl rfl (by funext b; simp [sampleMotionAlt]) rfl).2.2.1⟩

end CasseBriques
